import Mathlib

/-!
Verification of the minibatch sampling and prefetch pipeline of
`src/lib/roi_data_layer/layer_pi.py` (classes `RoIDataLayerPi` and `BlobFetcher`).

Modelling conventions:
* `r['max_overlaps']` is a vector of rationals (overlaps live in [0,1]); we use `ℚ`.
* The process-wide configuration singleton `cfg` (`fast_rcnn.config`) is an explicit
  `Config` record.
* `np.random` is external; each random draw is made explicit.  For the synchronous
  sampler, the freshly drawn full permutation is an explicit argument `draw`; for the
  `BlobFetcher` process the generator is threaded as explicit state through a
  `permFn`/`seedFn` pair.
* Mutable layer attributes (`self._roidb`, `self._perm`, `self._cur`) are a
  `LayerState` record threaded through the operations.
-/

/-- One roidb record: the per-region maximal overlap vector used for eligibility. -/
structure Ex where
  max_overlaps : List ℚ
deriving Inhabited, DecidableEq

/-- The configuration values this layer reads from `cfg` / `cfg.TRAIN`. -/
structure Config where
  FG_THRESH : ℚ
  BG_THRESH_LO : ℚ
  BG_THRESH_HI : ℚ
  IMS_PER_BATCH : Nat
  num_classes : Nat
  num_data : Nat
  RNG_SEED : Nat
  BBOX_REG : Bool
  USE_PREFETCH : Bool

/-- Line 29: `np.any(np.all(ov > cfg.TRAIN.FG_THRESH, axis = 1), axis = 0)` for the
column vector `ov`: some region overlap strictly exceeds the foreground threshold. -/
def has_fg (cfg : Config) (r : Ex) : Bool :=
  r.max_overlaps.any (fun o => decide (cfg.FG_THRESH < o))

/-- Line 30: some region overlap is strictly between `BG_THRESH_LO` and `BG_THRESH_HI`
(`ov > cfg.TRAIN.BG_THRESH_LO` and `ov < cfg.TRAIN.BG_THRESH_HI`). -/
def has_bg (cfg : Config) (r : Ex) : Bool :=
  r.max_overlaps.any (fun o => decide (cfg.BG_THRESH_LO < o) && decide (o < cfg.BG_THRESH_HI))

/-- Line 31: an index is kept iff `has_fg and has_bg`. -/
def eligible (cfg : Config) (r : Ex) : Bool := has_fg cfg r && has_bg cfg r

/-- Lines 26-33: the `valid` list built by enumerating the roidb in order and keeping
the indices whose record passes the eligibility test. -/
def validInds (cfg : Config) (roidb : List Ex) : List Nat :=
  (List.range roidb.length).filter (fun i => eligible cfg (roidb.getD i default))

/-- The mutable sampler state of `RoIDataLayerPi`: `self._roidb`, `self._perm`,
`self._cur`. -/
structure LayerState where
  roidb : List Ex
  perm : List Nat
  cur : Nat
deriving DecidableEq

/-- `RoIDataLayerPi._shuffle_roidb_inds` (lines 25-38): `draw` is the value of
`np.random.permutation(np.arange(len(self._roidb)))`; the stored permutation is
`[a for a in pp if a in valid]` and the cursor is reset to 0. -/
def shuffleRoidbInds (cfg : Config) (draw : List Nat) (s : LayerState) : LayerState :=
  { s with perm := draw.filter (fun a => decide (a ∈ validInds cfg s.roidb)), cur := 0 }

/-- `RoIDataLayerPi._get_next_minibatch_inds` (lines 40-47): reshuffle when
`self._cur + cfg.TRAIN.IMS_PER_BATCH >= len(self._perm)`, slice
`self._perm[self._cur : self._cur + IMS_PER_BATCH]`, advance the cursor. -/
def getNextMinibatchInds (cfg : Config) (draw : List Nat) (s : LayerState) :
    List Nat × LayerState :=
  let s1 := if s.cur + cfg.IMS_PER_BATCH ≥ s.perm.length then shuffleRoidbInds cfg draw s else s
  ((s1.perm.drop s1.cur).take cfg.IMS_PER_BATCH, { s1 with cur := s1.cur + cfg.IMS_PER_BATCH })

/-- The eligibility predicate exactly as the spec words it (§3): a region overlap
strictly above the foreground threshold, and a region overlap in the HALF-OPEN
background band `[BG_LO, BG_HI)`.  (The source uses a strict lower bound instead.) -/
def specEligible (cfg : Config) (r : Ex) : Prop :=
  (∃ o ∈ r.max_overlaps, cfg.FG_THRESH < o) ∧
  (∃ o ∈ r.max_overlaps, cfg.BG_THRESH_LO ≤ o ∧ o < cfg.BG_THRESH_HI)

instance (cfg : Config) (r : Ex) : Decidable (specEligible cfg r) :=
  inferInstanceAs (Decidable
    ((∃ o ∈ r.max_overlaps, cfg.FG_THRESH < o) ∧
     (∃ o ∈ r.max_overlaps, cfg.BG_THRESH_LO ≤ o ∧ o < cfg.BG_THRESH_HI)))

/-- The sampler contract as §4.1 of the spec words it: if
`cursor + batch_size >= length(permutation)` reshuffle first, then return the slice
`permutation[cursor : cursor + batch_size]` and advance the cursor by the configured
images-per-batch constant. -/
def nextIndicesSpec (cfg : Config) (draw : List Nat) (s : LayerState) :
    List Nat × LayerState :=
  if s.cur + cfg.IMS_PER_BATCH ≥ s.perm.length then
    let s1 := shuffleRoidbInds cfg draw s
    ((s1.perm.drop s1.cur).take cfg.IMS_PER_BATCH, { s1 with cur := s1.cur + cfg.IMS_PER_BATCH })
  else
    ((s.perm.drop s.cur).take cfg.IMS_PER_BATCH, { s with cur := s.cur + cfg.IMS_PER_BATCH })

/- Test fixtures (thresholds match the usual Fast R-CNN values FG 0.5, BG [0.1, 0.5)). -/

/-- A record that is eligible under both the source's and the spec's band. -/
def exEligible : Ex := { max_overlaps := [mkRat 3 5, mkRat 3 10] }

/-- A record whose only background-band candidate sits exactly at `BG_THRESH_LO`:
inside the spec's half-open band, outside the source's strict band. -/
def exBorder : Ex := { max_overlaps := [mkRat 3 5, mkRat 1 10] }

def cfgMain : Config :=
  { FG_THRESH := mkRat 1 2, BG_THRESH_LO := mkRat 1 10, BG_THRESH_HI := mkRat 1 2,
    IMS_PER_BATCH := 2, num_classes := 2, num_data := 1, RNG_SEED := 3,
    BBOX_REG := false, USE_PREFETCH := false }

def cfgOne : Config := { cfgMain with IMS_PER_BATCH := 1 }

def stOneEligible : LayerState := { roidb := [exEligible], perm := [0], cur := 0 }

def stBorder : LayerState := { roidb := [exBorder], perm := [], cur := 0 }

/- Basic lemmas about the sampler. -/

lemma mem_validInds (cfg : Config) (db : List Ex) (a : Nat) :
    a ∈ validInds cfg db ↔ a < db.length ∧ eligible cfg (db.getD a default) = true := by
  simp [validInds, List.mem_filter, List.mem_range]

lemma shuffle_perm_eq (cfg : Config) (draw : List Nat) (s : LayerState) :
    (shuffleRoidbInds cfg draw s).perm
      = draw.filter (fun a => decide (a ∈ validInds cfg s.roidb)) := rfl

lemma range_filter_mem_valid (cfg : Config) (db : List Ex) :
    (List.range db.length).filter (fun a => decide (a ∈ validInds cfg db))
      = validInds cfg db := by
  rw [validInds]
  apply List.filter_congr
  intro a ha
  rw [List.mem_range] at ha
  simp [mem_validInds, ha]

lemma shuffle_perm_length (cfg : Config) (draw : List Nat) (s : LayerState)
    (hdraw : draw.Perm (List.range s.roidb.length)) :
    (shuffleRoidbInds cfg draw s).perm.length = (validInds cfg s.roidb).length := by
  rw [shuffle_perm_eq,
    (hdraw.filter (fun a => decide (a ∈ validInds cfg s.roidb))).length_eq,
    range_filter_mem_valid]

lemma shuffle_perm_nodup (cfg : Config) (draw : List Nat) (s : LayerState)
    (hdraw : draw.Perm (List.range s.roidb.length)) :
    (shuffleRoidbInds cfg draw s).perm.Nodup := by
  rw [shuffle_perm_eq]
  exact (hdraw.nodup_iff.mpr (List.nodup_range _)).filter _

/-- Claim C1: after the synchronous sampler's reshuffle, every index in the stored
permutation is in range and refers to an example that has a region overlap above the
foreground threshold and a region overlap in the half-open band `[BG_LO, BG_HI)`. -/
theorem C1_reshuffle_only_eligible (cfg : Config) (draw : List Nat) (s : LayerState)
    (i : Nat) (hi : i ∈ (shuffleRoidbInds cfg draw s).perm) :
    i < s.roidb.length ∧ specEligible cfg (s.roidb.getD i default) := by
  rw [shuffle_perm_eq, List.mem_filter] at hi
  have h2 : i ∈ validInds cfg s.roidb := of_decide_eq_true hi.2
  rw [mem_validInds] at h2
  refine ⟨h2.1, ?_, ?_⟩
  · have hfg : has_fg cfg (s.roidb.getD i default) = true := by
      have := h2.2
      rw [eligible, Bool.and_eq_true] at this
      exact this.1
    rw [has_fg, List.any_eq_true] at hfg
    obtain ⟨o, ho, hlt⟩ := hfg
    exact ⟨o, ho, of_decide_eq_true hlt⟩
  · have hbg : has_bg cfg (s.roidb.getD i default) = true := by
      have := h2.2
      rw [eligible, Bool.and_eq_true] at this
      exact this.2
    rw [has_bg, List.any_eq_true] at hbg
    obtain ⟨o, ho, hband⟩ := hbg
    rw [Bool.and_eq_true] at hband
    exact ⟨o, ho, le_of_lt (of_decide_eq_true hband.1), of_decide_eq_true hband.2⟩

/-- Witness for C1 at a concrete store, drawn permutation and index. -/
theorem C1_reshuffle_only_eligible_witness :
    0 < stOneEligible.roidb.length ∧ specEligible cfgMain (stOneEligible.roidb.getD 0 default) :=
  C1_reshuffle_only_eligible cfgMain [0] stOneEligible 0 (by decide)

/-- Claim C7: the synchronous next-indices operation is exactly the spec's description:
reshuffle precisely when `cursor + batch_size ≥ length(permutation)`, then return the
slice `permutation[cursor : cursor + batch_size]` and advance the cursor by the
configured images-per-batch constant. -/
theorem C7_next_indices_matches_spec (cfg : Config) (draw : List Nat) (s : LayerState) :
    getNextMinibatchInds cfg draw s = nextIndicesSpec cfg draw s := by
  by_cases h : s.cur + cfg.IMS_PER_BATCH ≥ s.perm.length <;>
    simp [getNextMinibatchInds, nextIndicesSpec, h]

/-- Claim C8 counterexample: an example whose only background candidate sits exactly at
`BG_THRESH_LO` is eligible under the spec's half-open band but is dropped by the
source's strict filter, so the stored permutation is not the full permutation filtered
by the spec's eligibility predicate. -/
theorem C8_counterexample :
    ¬ ((shuffleRoidbInds cfgMain [0] stBorder).perm
        = [0].filter (fun a =>
            decide (a < stBorder.roidb.length ∧
              specEligible cfgMain (stBorder.roidb.getD a default)))) := by
  decide

/-- Claim C8 (amended): the stored permutation equals the freshly drawn full
permutation filtered — order preserved, not re-permuted — to the in-range indices that
pass the SOURCE's eligibility test (whose background band is open at `BG_THRESH_LO`,
not half-open), and the cursor is reset to 0. -/
theorem C8_perm_is_ordered_filter (cfg : Config) (draw : List Nat) (s : LayerState) :
    (shuffleRoidbInds cfg draw s).perm
      = draw.filter (fun a =>
          decide (a < s.roidb.length) && eligible cfg (s.roidb.getD a default)) ∧
    (shuffleRoidbInds cfg draw s).cur = 0 := by
  refine ⟨?_, rfl⟩
  rw [shuffle_perm_eq]
  apply List.filter_congr
  intro a _
  by_cases hlt : a < s.roidb.length
  · by_cases hel : eligible cfg (s.roidb.getD a default) = true
    · simp [mem_validInds, hlt, hel]
    · rw [Bool.not_eq_true] at hel
      simp [mem_validInds, hlt, hel]
  · simp [mem_validInds, hlt]

/-- Claim C5 counterexample: with one eligible example and batch size 2, the eligible
set is non-empty yet next-indices returns a single index — fewer than the configured
batch size. -/
theorem C5_counterexample :
    validInds cfgMain stOneEligible.roidb ≠ [] ∧
    (getNextMinibatchInds cfgMain [0] stOneEligible).1.length ≠ cfgMain.IMS_PER_BATCH := by
  decide

/-- Claim C5 (amended): provided the eligible set has at least `batch_size` elements
(the fresh draw being a permutation of all index positions and the current permutation
duplicate-free), next-indices returns exactly `batch_size` pairwise distinct indices;
with a non-empty eligible set smaller than the batch size the returned slice is
shorter. -/
theorem C5_batch_size_and_distinct (cfg : Config) (s : LayerState) (draw : List Nat)
    (hnd : s.perm.Nodup)
    (hdraw : draw.Perm (List.range s.roidb.length))
    (hcard : cfg.IMS_PER_BATCH ≤ (validInds cfg s.roidb).length) :
    (getNextMinibatchInds cfg draw s).1.length = cfg.IMS_PER_BATCH ∧
    (getNextMinibatchInds cfg draw s).1.Nodup := by
  by_cases h : s.cur + cfg.IMS_PER_BATCH ≥ s.perm.length
  · simp only [getNextMinibatchInds, if_pos h]
    have hlen := shuffle_perm_length cfg draw s hdraw
    have hnd2 := shuffle_perm_nodup cfg draw s hdraw
    have hcur : (shuffleRoidbInds cfg draw s).cur = 0 := rfl
    constructor
    · rw [List.length_take, List.length_drop, hcur, hlen]
      omega
    · exact hnd2.sublist ((List.take_sublist _ _).trans (List.drop_sublist _ _))
  · simp only [getNextMinibatchInds, if_neg h]
    constructor
    · rw [List.length_take, List.length_drop]
      omega
    · exact hnd.sublist ((List.take_sublist _ _).trans (List.drop_sublist _ _))

/-- Witness for C5 (amended) at batch size 1 with a single eligible example. -/
theorem C5_batch_size_and_distinct_witness :
    (getNextMinibatchInds cfgOne [0] stOneEligible).1.length = cfgOne.IMS_PER_BATCH ∧
    (getNextMinibatchInds cfgOne [0] stOneEligible).1.Nodup :=
  C5_batch_size_and_distinct cfgOne stOneEligible [0] (by decide) (by decide) (by decide)

/-- Claim C6 counterexample: with one eligible example and batch size 2, a single
next-indices call leaves the cursor at 2 while the permutation has length 1, so the
cursor escapes `[0, length(permutation)]`. -/
theorem C6_counterexample :
    validInds cfgMain stOneEligible.roidb ≠ [] ∧
    ¬ ((getNextMinibatchInds cfgMain [0] stOneEligible).2.cur
        ≤ (getNextMinibatchInds cfgMain [0] stOneEligible).2.perm.length) := by
  decide

/-- Claim C6 (amended): provided the eligible set has at least `batch_size` elements
(the fresh draw being a permutation of all index positions), the cursor stays within
`[0, length(permutation)]` after a reshuffle and after any next-indices call, and
whenever `cursor + batch_size ≥ length(permutation)` the permutation is regenerated
from the fresh draw, the cursor being reset to 0 before the slice is taken and then
advanced to `batch_size`. -/
theorem C6_cursor_invariant (cfg : Config) (s : LayerState) (draw : List Nat)
    (hdraw : draw.Perm (List.range s.roidb.length))
    (hcard : cfg.IMS_PER_BATCH ≤ (validInds cfg s.roidb).length) :
    (shuffleRoidbInds cfg draw s).cur ≤ (shuffleRoidbInds cfg draw s).perm.length ∧
    (getNextMinibatchInds cfg draw s).2.cur
      ≤ (getNextMinibatchInds cfg draw s).2.perm.length ∧
    (s.cur + cfg.IMS_PER_BATCH ≥ s.perm.length →
      (getNextMinibatchInds cfg draw s).2.perm = (shuffleRoidbInds cfg draw s).perm ∧
      (getNextMinibatchInds cfg draw s).2.cur = cfg.IMS_PER_BATCH) := by
  have hlen := shuffle_perm_length cfg draw s hdraw
  refine ⟨Nat.zero_le _, ?_, ?_⟩
  · by_cases h : s.cur + cfg.IMS_PER_BATCH ≥ s.perm.length
    · simp only [getNextMinibatchInds, if_pos h]
      have hcur : (shuffleRoidbInds cfg draw s).cur = 0 := rfl
      rw [hcur, hlen]
      omega
    · simp only [getNextMinibatchInds, if_neg h]
      omega
  · intro h
    simp [getNextMinibatchInds, if_pos h]
    rfl

/-- Witness for C6 (amended) at batch size 1 with a single eligible example. -/
theorem C6_cursor_invariant_witness :
    (shuffleRoidbInds cfgOne [0] stOneEligible).cur
      ≤ (shuffleRoidbInds cfgOne [0] stOneEligible).perm.length ∧
    (getNextMinibatchInds cfgOne [0] stOneEligible).2.cur
      ≤ (getNextMinibatchInds cfgOne [0] stOneEligible).2.perm.length ∧
    (stOneEligible.cur + cfgOne.IMS_PER_BATCH ≥ stOneEligible.perm.length →
      (getNextMinibatchInds cfgOne [0] stOneEligible).2.perm
        = (shuffleRoidbInds cfgOne [0] stOneEligible).perm ∧
      (getNextMinibatchInds cfgOne [0] stOneEligible).2.cur = cfgOne.IMS_PER_BATCH) :=
  C6_cursor_invariant cfgOne stOneEligible [0] (by decide) (by decide)

/-- A named numeric array ("blob"): a shape and a flat payload. -/
structure NBlob (α : Type) where
  shape : List Nat
  data : List α
deriving DecidableEq

/-- Blob name of image stream `i`: `data` for the primary stream, `data_i` beyond. -/
def dataBlobName : Nat → String
  | 0 => "data"
  | Nat.succ n => "data_" ++ toString (n + 1)

/-- Modelled from the spec: the image blob of one stream.  Image decoding is out of the
spec's scope (§1), so the payload is empty and only the leading batch dimension is
kept. -/
def imageStreamBlob (db : List Ex) (_i : Nat) : NBlob ℚ :=
  { shape := [db.length, 3, 100, 100], data := [] }

/-- Modelled from the spec: the RoI blob, shape R×5 (§4.4). -/
def roisBlob (db : List Ex) : NBlob ℚ := { shape := [db.length, 5], data := [] }

/-- Modelled from the spec: the label blob, shape R (§4.4). -/
def labelsBlob (db : List Ex) : NBlob ℚ := { shape := [db.length], data := [] }

/-- Modelled from the spec: `get_minibatch` (`roi_data_layer/minibatch.py`) is not under
`src/`.  Per §6 its interface is `build(examples, num_classes, [num_data]) ->
mapping<string, ndarray>` and per §4.4 the blob set comprises the primary image blob,
the auxiliary image blobs `data_1 .. data_{num_data-1}`, a RoI blob of shape R×5 and a
label blob of shape R (bounding-box regression blobs are omitted: no claim depends on
them).  Sampling internals are out of the spec's scope; the builder is deterministic
given its random state (§6), which the claims exclude. -/
def getMinibatch (db : List Ex) (_num_classes : Nat) (num_data : Nat) :
    List (String × NBlob ℚ) :=
  ((List.range num_data).map (fun i => (dataBlobName i, imageStreamBlob db i)))
    ++ [("rois", roisBlob db), ("labels", labelsBlob db)]

/-- Modelled from the spec: the default of the builder's optional `num_data` parameter
(§6 marks it optional; §4.4 slot 0 is the sole mandatory image stream, so the default
is a single stream). -/
def defaultNumData : Nat := 1

/-- Synchronous feeder blob construction for a fixed index batch
(`RoIDataLayerPi._get_next_minibatch`, lines 57-59): `get_minibatch(minibatch_db,
self._num_classes, self._num_data)`. -/
def syncBlobsFor (cfg : Config) (roidb : List Ex) (db_inds : List Nat) :
    List (String × NBlob ℚ) :=
  getMinibatch (db_inds.map (fun i => roidb.getD i default)) cfg.num_classes cfg.num_data

/-- Prefetch producer blob construction for the same fixed index batch
(`BlobFetcher.run`, lines 176-182): `get_minibatch(minibatch_db, self._num_classes)` —
the `num_data` argument is omitted, so the builder's default applies. -/
def fetcherBlobsFor (cfg : Config) (roidb : List Ex) (db_inds : List Nat) :
    List (String × NBlob ℚ) :=
  getMinibatch (db_inds.map (fun i => roidb.getD i default)) cfg.num_classes defaultNumData

def cfgTwoData : Config := { cfgMain with num_data := 2 }

/-- Claim C2 (code-bug evaluation): with `num_data = 2` the synchronous path's blob set
contains the auxiliary blob `data_1` while the prefetch producer's blob set for the
very same index batch does not, because `BlobFetcher.run` drops the `num_data`
argument — the two feeder modes are not byte-for-byte identical. -/
theorem C2_sync_prefetch_differ :
    syncBlobsFor cfgTwoData [exEligible] [0] ≠ fetcherBlobsFor cfgTwoData [exEligible] [0] := by
  decide

/-- The mutable state of the `BlobFetcher` process, with the numpy global generator
made explicit as an `rng` component of type `R`. -/
structure FetcherState (R : Type) where
  roidb : List Ex
  perm : List Nat
  cur : Nat
  rng : R
deriving DecidableEq

/-- `BlobFetcher._shuffle_roidb_inds` (lines 160-164): permute ALL index positions (no
eligibility filter) and reset the cursor; `permFn` models
`np.random.permutation(np.arange(n))` as an explicit state transition. -/
def fetcherShuffle {R : Type} (permFn : R → Nat → List Nat × R) (s : FetcherState R) :
    FetcherState R :=
  { s with perm := (permFn s.rng s.roidb.length).1, cur := 0,
           rng := (permFn s.rng s.roidb.length).2 }

/-- `BlobFetcher.__init__` (lines 149-158): the fields are set, `_shuffle_roidb_inds()`
is called, and only AFTERWARDS is the generator seeded with
`np.random.seed(cfg.RNG_SEED)` (`seedFn`). -/
def fetcherInit {R : Type} (permFn : R → Nat → List Nat × R) (seedFn : Nat → R)
    (cfg : Config) (roidb : List Ex) (rng0 : R) : FetcherState R :=
  let s := fetcherShuffle permFn { roidb := roidb, perm := [], cur := 0, rng := rng0 }
  { s with rng := seedFn cfg.RNG_SEED }

/-- A concrete toy generator used to exhibit C3's failure: the drawn permutation is a
genuine permutation of `range n` that depends on the incoming state's parity, and
seeding always yields an even state. -/
def toyPermFn (r : Nat) (n : Nat) : List Nat × Nat :=
  (if r % 2 = 0 then List.range n else (List.range n).reverse, r + 1)

def toySeedFn (seed : Nat) : Nat := 2 * seed

/-- Claim C3 counterexample: two spawns with the SAME configuration (seed included) and
the same Example Store but different ambient pre-spawn generator states produce
different initial permutations, because `BlobFetcher.__init__` draws the first
permutation before installing the seed. -/
theorem C3_counterexample :
    (fetcherInit toyPermFn toySeedFn cfgMain [exEligible, exBorder] 0).perm
      ≠ (fetcherInit toyPermFn toySeedFn cfgMain [exEligible, exBorder] 1).perm := by
  decide

/-- Claim C3 (amended): the producer's generator is seeded from the configured seed at
spawn, but only AFTER the initial shuffle: the initial permutation depends on the
pre-existing generator state, while the post-init generator state is a function of the
configured seed alone, so every draw after init — in particular every subsequent
permutation — coincides between two runs with the same configuration and store. -/
theorem C3_seeded_after_first_draw {R : Type} (permFn : R → Nat → List Nat × R)
    (seedFn : Nat → R) (cfg : Config) (roidb : List Ex) (r1 r2 : R) :
    (fetcherInit permFn seedFn cfg roidb r1).rng
      = (fetcherInit permFn seedFn cfg roidb r2).rng ∧
    (fetcherShuffle permFn (fetcherInit permFn seedFn cfg roidb r1)).perm
      = (fetcherShuffle permFn (fetcherInit permFn seedFn cfg roidb r2)).perm :=
  ⟨rfl, rfl⟩

/-- Python `int(s)` as `argparse` `type=int` applies it: an optional sign followed by a
non-empty digit string; anything else raises. -/
def digitsToNatAux : List Char → Nat → Option Nat
  | [], acc => some acc
  | c :: cs, acc =>
    if decide ('0' ≤ c) && decide (c ≤ '9')
    then digitsToNatAux cs (acc * 10 + (c.toNat - Char.toNat '0'))
    else none

def digitsToNat : List Char → Option Nat
  | [] => none
  | c :: cs => digitsToNatAux (c :: cs) 0

def parseInt (s : String) : Option Int :=
  match s.toList with
  | '-' :: cs => (digitsToNat cs).map (fun n => -(n : Int))
  | '+' :: cs => (digitsToNat cs).map (fun n => (n : Int))
  | cs => (digitsToNat cs).map (fun n => (n : Int))

/-- The two optional flags of `RoIDataLayerPi._parse_args` (lines 80-85): both default
to `None` — argparse does NOT require them. -/
structure ParsedArgs where
  num_classes : Option Int
  num_data : Option Int
deriving DecidableEq

/-- `argparse` over the space-split token list (lines 80-85): a recognised flag consumes
the following token as an integer value (a fatal error when the value is not an
integer or is missing), any other token is a fatal "unrecognized arguments" error, and
a later occurrence of a flag overrides an earlier one. -/
def parseArgsAux : List String → ParsedArgs → Except String ParsedArgs
  | [], acc => Except.ok acc
  | t :: rest, acc =>
    if t = "--num_classes" then
      match rest with
      | v :: rest2 =>
        match parseInt v with
        | some n => parseArgsAux rest2 { acc with num_classes := some n }
        | none => Except.error "argument --num_classes: invalid int value"
      | [] => Except.error "argument --num_classes: expected one argument"
    else if t = "--num_data" then
      match rest with
      | v :: rest2 =>
        match parseInt v with
        | some n => parseArgsAux rest2 { acc with num_data := some n }
        | none => Except.error "argument --num_data: invalid int value"
      | [] => Except.error "argument --num_data: expected one argument"
    else Except.error "unrecognized arguments"

def parseArgs (toks : List String) : Except String ParsedArgs :=
  parseArgsAux toks { num_classes := none, num_data := none }

/-- The configuration `setup` leaves behind: the parsed counts and the
name-to-top-slot mapping. -/
structure LayerSetup where
  num_classes : Option Int
  num_data : Int
  name_to_top_map : List (String × Int)
deriving DecidableEq

/-- Python `range(lo, hi)` over machine integers. -/
def intRange (lo hi : Int) : List Int :=
  (List.range (hi - lo).toNat).map (fun k => lo + (k : Int))

/-- `RoIDataLayerPi.setup` (lines 87-125): parse the parameter string, store
`num_classes`/`num_data` as parsed (possibly `None`), then build
`self._name_to_top_map`: `data` at slot 0, `data_i` at slot `i` for
`i in xrange(1, num_data)` (a fatal `TypeError` when `num_data` is `None`), `rois` at
slot `num_data`, `labels` at slot `num_data + 1`, and — only when
`cfg.TRAIN.BBOX_REG` — `bbox_targets`/`bbox_loss_weights` at the two following slots
(a fatal `TypeError` there when `num_classes` is `None`, from
`self._num_classes * 4`).  No range or ≥1 validation of `num_data` is performed
anywhere. -/
def setup (bbox_reg : Bool) (toks : List String) : Except String LayerSetup :=
  match parseArgs toks with
  | Except.error e => Except.error e
  | Except.ok args =>
    match args.num_data with
    | none => Except.error "TypeError: xrange() integer end argument expected, got NoneType"
    | some nd =>
      let aux := (intRange 1 nd).map (fun i => ("data_" ++ toString i, i))
      let m := (("data", (0 : Int)) :: aux) ++ [("rois", nd), ("labels", nd + 1)]
      if bbox_reg then
        match args.num_classes with
        | none => Except.error "TypeError: unsupported operand types for *: NoneType and int"
        | some _ =>
          Except.ok { num_classes := args.num_classes, num_data := nd,
                      name_to_top_map := m ++ [("bbox_targets", nd + 2), ("bbox_loss_weights", nd + 3)] }
      else
        Except.ok { num_classes := args.num_classes, num_data := nd, name_to_top_map := m }

/-- Claim C4 counterexample: `num_data = 0 < 1` is NOT rejected — setup completes and
configures the layer, even mapping `rois` onto the same slot 0 as `data`. -/
theorem C4_counterexample :
    setup false ["--num_classes", "2", "--num_data", "0"]
      = Except.ok { num_classes := some 2, num_data := 0,
                    name_to_top_map := [("data", 0), ("rois", 0), ("labels", 1)] } := rfl

/-- Claim C4 (amended): a non-integer value token for `--num_classes` or `--num_data`
does fail fatally at parse time, and when parsing yields no `num_data` the setup fails
with a type error; but the flags are optional rather than required, and `num_data < 1`
is accepted without any validation — such input configures the layer. -/
theorem C4_parse_failures (v : String) (rest : List String) (a : ParsedArgs)
    (hv : parseInt v = none) :
    parseArgsAux ("--num_classes" :: v :: rest) a
        = Except.error "argument --num_classes: invalid int value" ∧
    parseArgsAux ("--num_data" :: v :: rest) a
        = Except.error "argument --num_data: invalid int value" ∧
    (∀ bbox_reg toks args, parseArgs toks = Except.ok args → args.num_data = none →
      setup bbox_reg toks
        = Except.error "TypeError: xrange() integer end argument expected, got NoneType") ∧
    (∃ st, setup false ["--num_classes", "2", "--num_data", "0"] = Except.ok st ∧
      st.num_data < 1) := by
  refine ⟨?_, ?_, ?_, ?_⟩
  · simp [parseArgsAux, hv]
  · simp [parseArgsAux, hv]
  · intro bbox_reg toks args hok hnd
    rw [setup, hok]
    simp [hnd]
  · exact ⟨{ num_classes := some 2, num_data := 0,
             name_to_top_map := [("data", 0), ("rois", 0), ("labels", 1)] },
           rfl, by decide⟩

/-- Witness for C4 (amended) at the concrete malformed value token `"abc"`. -/
theorem C4_parse_failures_witness :
    parseArgsAux ["--num_classes", "abc"] { num_classes := none, num_data := none }
        = Except.error "argument --num_classes: invalid int value" ∧
    parseArgsAux ["--num_data", "abc"] { num_classes := none, num_data := none }
        = Except.error "argument --num_data: invalid int value" ∧
    (∀ bbox_reg toks args, parseArgs toks = Except.ok args → args.num_data = none →
      setup bbox_reg toks
        = Except.error "TypeError: xrange() integer end argument expected, got NoneType") ∧
    (∃ st, setup false ["--num_classes", "2", "--num_data", "0"] = Except.ok st ∧
      st.num_data < 1) :=
  C4_parse_failures "abc" [] { num_classes := none, num_data := none } (by decide)

/-- `blob.astype(np.float32)` followed by the copy: the destination slot gets the
blob's exact shape and its contents mapped through the numeric conversion `f`. -/
def convBlob {α β : Type} (f : α → β) (b : NBlob α) : NBlob β :=
  { shape := b.shape, data := b.data.map f }

/-- `RoIDataLayerPi.forward` (lines 128-137): for each `(blob_name, blob)` pair,
look the name up in `self._name_to_top_map` (a missing name is a fatal `KeyError`, an
out-of-range slot a fatal index error), `top[top_ind].reshape(*(blob.shape))` and
`top[top_ind].data[...] = blob.astype(np.float32)`.  The top vector is a list of
destination blobs; the numeric conversion is the abstract elementwise map `f`. -/
def forwardBlobs {α β : Type} (f : α → β) (m : List (String × Int)) :
    List (String × NBlob α) → List (NBlob β) → Option (List (NBlob β))
  | [], tops => some tops
  | (name, b) :: rest, tops =>
    match List.lookup name m with
    | none => none
    | some ti =>
      if 0 ≤ ti ∧ ti.toNat < tops.length then
        forwardBlobs f m rest (tops.set ti.toNat (convBlob f b))
      else none

lemma forwardBlobs_length {α β : Type} (f : α → β) (m : List (String × Int)) :
    ∀ (blobs : List (String × NBlob α)) (tops tops' : List (NBlob β)),
      forwardBlobs f m blobs tops = some tops' → tops'.length = tops.length := by
  intro blobs
  induction blobs with
  | nil =>
    intro tops tops' h
    cases h
    rfl
  | cons p rest ih =>
    intro tops tops' h
    obtain ⟨name, b⟩ := p
    cases hlk : List.lookup name m with
    | none =>
      simp only [forwardBlobs, hlk] at h
      exact Option.noConfusion h
    | some ti =>
      simp only [forwardBlobs, hlk] at h
      by_cases hcond : 0 ≤ ti ∧ ti.toNat < tops.length
      · rw [if_pos hcond] at h
        rw [ih _ _ h, List.length_set]
      · rw [if_neg hcond] at h
        exact Option.noConfusion h

lemma forwardBlobs_untouched {α β : Type} (f : α → β) (m : List (String × Int)) :
    ∀ (blobs : List (String × NBlob α)) (tops tops' : List (NBlob β)) (j : Nat),
      forwardBlobs f m blobs tops = some tops' →
      (∀ p ∈ blobs, ∀ ti, List.lookup p.1 m = some ti → ti.toNat ≠ j) →
      tops'[j]? = tops[j]? := by
  intro blobs
  induction blobs with
  | nil =>
    intro tops tops' j h _
    cases h
    rfl
  | cons p rest ih =>
    intro tops tops' j h hmiss
    obtain ⟨name, b⟩ := p
    cases hlk : List.lookup name m with
    | none =>
      simp only [forwardBlobs, hlk] at h
      exact Option.noConfusion h
    | some ti =>
      simp only [forwardBlobs, hlk] at h
      by_cases hcond : 0 ≤ ti ∧ ti.toNat < tops.length
      · rw [if_pos hcond] at h
        have hne : ti.toNat ≠ j := hmiss ⟨name, b⟩ (List.mem_cons_self _ _) ti hlk
        have hrest := ih _ _ j h (fun q hq tq hq2 => hmiss q (List.mem_cons_of_mem _ hq) tq hq2)
        rw [hrest, List.getElem?_set_ne hne]
      · rw [if_neg hcond] at h
        exact Option.noConfusion h

/-- Claim C9: for every blob-set whose names are distinct, all present in the
name-to-slot mapping with in-range pairwise-distinct slots, the forward step succeeds
and afterwards each named destination slot holds exactly the corresponding array's
shape together with its contents mapped through the numeric conversion. -/
theorem C9_forward_resize_and_copy {α β : Type} (f : α → β) (m : List (String × Int))
    (blobs : List (String × NBlob α)) (tops : List (NBlob β))
    (hdom : ∀ p ∈ blobs, ∃ ti, List.lookup p.1 m = some ti ∧ 0 ≤ ti ∧ ti.toNat < tops.length)
    (hinj : ∀ p ∈ blobs, ∀ q ∈ blobs, List.lookup p.1 m = List.lookup q.1 m → p.1 = q.1)
    (hnd : (blobs.map Prod.fst).Nodup) :
    ∃ tops', forwardBlobs f m blobs tops = some tops' ∧ tops'.length = tops.length ∧
      ∀ p ∈ blobs, ∀ ti, List.lookup p.1 m = some ti →
        tops'[ti.toNat]? = some (convBlob f p.2) := by
  induction blobs generalizing tops with
  | nil =>
    refine ⟨tops, rfl, rfl, ?_⟩
    intro p hp
    cases hp
  | cons hd rest ih =>
    obtain ⟨name, b⟩ := hd
    obtain ⟨ti, hlk, hge, hlt⟩ := hdom ⟨name, b⟩ (List.mem_cons_self _ _)
    have hstep : forwardBlobs f m ((name, b) :: rest) tops
        = forwardBlobs f m rest (tops.set ti.toNat (convBlob f b)) := by
      simp only [forwardBlobs, hlk]
      rw [if_pos ⟨hge, hlt⟩]
    have hname_not : name ∉ rest.map Prod.fst := by
      have h := hnd
      rw [List.map_cons, List.nodup_cons] at h
      exact h.1
    have hdom2 : ∀ p ∈ rest, ∃ tj, List.lookup p.1 m = some tj ∧ 0 ≤ tj ∧
        tj.toNat < (tops.set ti.toNat (convBlob f b)).length := by
      intro p hp
      obtain ⟨tj, h1, h2, h3⟩ := hdom p (List.mem_cons_of_mem _ hp)
      exact ⟨tj, h1, h2, by rw [List.length_set]; exact h3⟩
    have hinj2 : ∀ p ∈ rest, ∀ q ∈ rest, List.lookup p.1 m = List.lookup q.1 m → p.1 = q.1 :=
      fun p hp q hq => hinj p (List.mem_cons_of_mem _ hp) q (List.mem_cons_of_mem _ hq)
    have hnd2 : (rest.map Prod.fst).Nodup := by
      have h := hnd
      rw [List.map_cons, List.nodup_cons] at h
      exact h.2
    obtain ⟨tops', heq, hlen, hrest⟩ := ih (tops.set ti.toNat (convBlob f b)) hdom2 hinj2 hnd2
    refine ⟨tops', by rw [hstep]; exact heq,
      by rw [hlen, List.length_set], ?_⟩
    intro p hp tj hptj
    rcases List.mem_cons.mp hp with hph | hpr
    · subst hph
      rw [hlk] at hptj
      cases hptj
      have huntouched : tops'[ti.toNat]? = (tops.set ti.toNat (convBlob f b))[ti.toNat]? := by
        apply forwardBlobs_untouched f m rest _ tops' ti.toNat heq
        intro q hq tq hq2
        obtain ⟨tq0, hq0, hq0ge, _⟩ := hdom q (List.mem_cons_of_mem _ hq)
        rw [hq0] at hq2
        cases hq2
        intro hcontra
        have htq : tq = ti := by
          have h1 : ((tq.toNat : Nat) : Int) = tq := Int.toNat_of_nonneg hq0ge
          have h2 : ((ti.toNat : Nat) : Int) = ti := Int.toNat_of_nonneg hge
          rw [← h1, ← h2, hcontra]
        have hq1 : q.1 = name := by
          apply hinj q (List.mem_cons_of_mem _ hq) ⟨name, b⟩ (List.mem_cons_self _ _)
          rw [hq0, htq, hlk]
        exact hname_not (by rw [← hq1]; exact List.mem_map_of_mem Prod.fst hq)
      rw [huntouched]
      exact List.getElem?_set_self hlt
    · exact hrest p hpr tj hptj

def wMap : List (String × Int) := [("data", 0), ("rois", 1), ("labels", 2)]

def wBlobs : List (String × NBlob ℚ) := [("rois", { shape := [1, 5], data := [0, 0, 0, 1, 1] })]

def wTops : List (NBlob ℚ) :=
  [{ shape := [1, 7, 100, 100], data := [] },
   { shape := [1, 5], data := [] },
   { shape := [1], data := [] }]

/-- Witness for C9 at a concrete map, blob-set and top vector. -/
theorem C9_forward_resize_and_copy_witness :
    ∃ tops', forwardBlobs (fun q : ℚ => q) wMap wBlobs wTops = some tops' ∧
      tops'.length = wTops.length ∧
      ∀ p ∈ wBlobs, ∀ ti, List.lookup p.1 wMap = some ti →
        tops'[ti.toNat]? = some (convBlob (fun q : ℚ => q) p.2) :=
  C9_forward_resize_and_copy (fun q : ℚ => q) wMap wBlobs wTops
    (by
      intro p hp
      simp only [wBlobs, List.mem_singleton] at hp
      subst hp
      exact ⟨1, rfl, by decide, by decide⟩)
    (by
      intro p hp q hq _
      simp only [wBlobs, List.mem_singleton] at hp
      simp only [wBlobs, List.mem_singleton] at hq
      rw [hp, hq])
    (by decide)

/-- `RoIDataLayerPi._get_next_minibatch` (lines 49-59), synchronous branch: take the
next index batch (mutating the sampler), gather the records and hand them to the
builder with `self._num_classes` and `self._num_data`. -/
def getNextMinibatchSync (cfg : Config) (draw : List Nat) (s : LayerState) :
    List (String × NBlob ℚ) × LayerState :=
  let r := getNextMinibatchInds cfg draw s
  (syncBlobsFor cfg r.2.roidb r.1, r.2)

/-- The effect of `_get_next_minibatch` on the consumer's layer state: in prefetch mode
the blobs come from the queue and the consumer's sampler state is untouched; in
synchronous mode the sampler advances. -/
def minibatchStateEffect (cfg : Config) (draw : List Nat) (s : LayerState) : LayerState :=
  if cfg.USE_PREFETCH then s else (getNextMinibatchSync cfg draw s).2

/-- The operations a training loop can invoke on the layer once the store is set:
reshuffle, next-indices, forward (which internally fetches the next minibatch), and
the no-op backward/reshape lifecycle calls (lines 139-145). -/
inductive LayerOp where
  | reshuffleOp (draw : List Nat)
  | nextIndsOp (draw : List Nat)
  | forwardOp (draw : List Nat)
  | backwardOp
  | reshapeOp

def applyOp (cfg : Config) (s : LayerState) : LayerOp → LayerState
  | LayerOp.reshuffleOp d => shuffleRoidbInds cfg d s
  | LayerOp.nextIndsOp d => (getNextMinibatchInds cfg d s).2
  | LayerOp.forwardOp d => minibatchStateEffect cfg d s
  | LayerOp.backwardOp => s
  | LayerOp.reshapeOp => s

def applyOps (cfg : Config) (s : LayerState) (ops : List LayerOp) : LayerState :=
  ops.foldl (applyOp cfg) s

lemma nextInds_roidb (cfg : Config) (draw : List Nat) (s : LayerState) :
    ((getNextMinibatchInds cfg draw s).2).roidb = s.roidb := by
  simp only [getNextMinibatchInds]
  split
  · rfl
  · rfl

lemma applyOp_roidb (cfg : Config) (s : LayerState) (op : LayerOp) :
    (applyOp cfg s op).roidb = s.roidb := by
  cases op with
  | reshuffleOp d => rfl
  | nextIndsOp d => exact nextInds_roidb cfg d s
  | forwardOp d =>
    simp only [applyOp, minibatchStateEffect]
    split
    · rfl
    · exact nextInds_roidb cfg d s
  | backwardOp => rfl
  | reshapeOp => rfl

/-- Claim C10: over every sequence of layer operations after the store is set —
reshuffle, next-indices, forward (fetching a minibatch in either mode), backward,
reshape — the Example Store component of the state is never mutated: the record list,
hence its ordering and length and every record, is unchanged. -/
theorem C10_roidb_never_mutated (cfg : Config) (ops : List LayerOp) (s : LayerState) :
    (applyOps cfg s ops).roidb = s.roidb := by
  induction ops generalizing s with
  | nil => rfl
  | cons op rest ih =>
    rw [applyOps, List.foldl_cons]
    exact (ih (applyOp cfg s op)).trans (applyOp_roidb cfg s op)
